import Mathlib

/-!
Shallow embedding of `svntool.py`: a fleet tool that applies SVN branch
topology and working-copy operations across a list of repositories.

Side-effecting code is modelled by explicit state passing: every operation
takes an `Oracle W` (the remote SVN service, an opaque external boundary)
and a world `w : W`, and returns its result together with the successor
world and a trace of events (subprocess invocations, library calls,
stdout/stderr writes).  Python string methods used by the source
(`strip`, `split`, `startswith`, `endswith`, `replace`, `isdigit`) are
modelled by structural functions over `List Char` so that concrete
instances evaluate in the kernel.

`colored(text, color)` is modelled as the identity on `text`, matching the
source's non-tty branch (terminal colouring is out of scope).
-/

namespace Svntool

/-! ## Python string primitives -/

/-- Python `str.strip()` whitespace set (ASCII): space, tab, newline,
carriage return, vertical tab, form feed. -/
def pyIsSpaceChar (c : Char) : Bool :=
  c = ' ' || c = '\t' || c = '\n' || c = '\r' || c = '\x0b' || c = '\x0c'

def dropSpaces : List Char → List Char
  | [] => []
  | c :: cs => if pyIsSpaceChar c then dropSpaces cs else c :: cs

/-- Python `str.strip()` on a character list: drop leading and trailing
whitespace. -/
def pyStripList (cs : List Char) : List Char :=
  dropSpaces (dropSpaces cs.reverse).reverse

def pyStrip (s : String) : String :=
  (pyStripList s.toList).asString

/-- Python `str.split(sep)` for a one-character separator. -/
def splitOnCharAux (sep : Char) : List Char → List Char → List (List Char)
  | [], acc => [acc.reverse]
  | c :: cs, acc =>
    if c = sep then acc.reverse :: splitOnCharAux sep cs []
    else splitOnCharAux sep cs (c :: acc)

def pySplitChar (s : String) (sep : Char) : List String :=
  (splitOnCharAux sep s.toList []).map List.asString

/-- Python `str.startswith(pre)`. -/
def pyStartsWith (s pre : String) : Bool :=
  pre.toList.isPrefixOf s.toList

/-- Python `str.endswith(suf)`. -/
def pyEndsWith (s suf : String) : Bool :=
  suf.toList.reverse.isPrefixOf s.toList.reverse

/-- Python `str.isdigit()` restricted to ASCII: nonempty and all digits. -/
def pyIsDigit (s : String) : Bool :=
  !s.isEmpty && s.toList.all Char.isDigit

/-- Python `str.replace(pat, rep)` (all occurrences) on character lists. -/
def pyReplaceList (pat rep : List Char) : List Char → List Char
  | [] => []
  | c :: cs =>
    if pat.isPrefixOf (c :: cs) && !pat.isEmpty then
      rep ++ pyReplaceList pat rep (cs.drop (pat.length - 1))
    else
      c :: pyReplaceList pat rep cs
termination_by l => l.length
decreasing_by
  · simp only [List.length_drop, List.length_cons]
    omega
  · simp

def pyReplace (s pat rep : String) : String :=
  (pyReplaceList pat.toList rep.toList s.toList).asString

/-- Python `os.path.basename`: the part after the last `/`. -/
def basename (s : String) : String :=
  (pySplitChar s '/').getLastD ""

/-- Python `'/'.join(parts)`. -/
def joinWith (sep : String) : List String → String
  | [] => ""
  | [x] => x
  | x :: y :: xs => x ++ sep ++ joinWith sep (y :: xs)

/-! ## The regex `(tags|branches)/[^/]+|trunk` of `currentPath`

`re.search` scans for the leftmost match; at each position the first
alternative `(tags|branches)/[^/]+` is tried before `trunk`, and `[^/]+`
is greedy with nothing after it to backtrack for. -/

/-- Greedy `[^/]+` body: take characters up to the next `/`. -/
def takeSeg : List Char → List Char
  | [] => []
  | c :: cs => if c = '/' then [] else c :: takeSeg cs

/-- The alternative `(tags|branches)/[^/]+` anchored at the head. -/
def layoutAlt1 (cs : List Char) : Option (List Char) :=
  if "tags/".toList.isPrefixOf cs then
    let seg := takeSeg (cs.drop 5)
    if seg.isEmpty then none else some ("tags/".toList ++ seg)
  else if "branches/".toList.isPrefixOf cs then
    let seg := takeSeg (cs.drop 9)
    if seg.isEmpty then none else some ("branches/".toList ++ seg)
  else none

/-- Both alternatives anchored at the head, in the regex's order. -/
def layoutAt (cs : List Char) : Option (List Char) :=
  match layoutAlt1 cs with
  | some m => some m
  | none => if "trunk".toList.isPrefixOf cs then some "trunk".toList else none

/-- Leftmost match: `re.search` over the whole string. -/
def layoutSearch : List Char → Option (List Char)
  | [] => none
  | c :: cs =>
    match layoutAt (c :: cs) with
    | some m => some m
    | none => layoutSearch cs

/-- `re.search(r'(tags|branches)/[^/]+|trunk', url)`: `none` models the
`TypeError` the source raises on `None[0]` when the URL has no match. -/
def currentPathOpt (url : String) : Option String :=
  (layoutSearch url.toList).map List.asString

/-! ## Data model -/

/-- The svn status categories of `svn.constants` used by the masks. -/
inductive SvnStatus where
  | added
  | conflicted
  | deleted
  | external
  | ignored
  | incomplete
  | merged
  | missing
  | modified
  | noneSt
  | normal
  | obstructed
  | replaced
  | unversioned
  deriving DecidableEq, Repr

/-- One pending change of `client.status()`: a status category and a path. -/
structure Change where
  type : SvnStatus
  name : String
  deriving DecidableEq, Repr

/-- `SVN_STATUS_MASK`: the commented-out entries of the source
(external, ignored, none, normal, unversioned) are absent. -/
def SVN_STATUS_MASK : List SvnStatus :=
  [.added, .conflicted, .deleted, .incomplete, .merged, .missing,
   .modified, .obstructed, .replaced]

/-- `SVN_COMMIT_MASK`. -/
def SVN_COMMIT_MASK : List SvnStatus :=
  [.added, .deleted, .merged, .modified, .replaced]

/-- The fields of `client.info()` the source reads. -/
structure RepoInfo where
  commit_revision : Int
  repository_root : String
  url : String
  deriving DecidableEq, Repr

/-- A `Repo` instance: its constructor argument `local_path` and the cached
`self.info`. -/
structure Repo where
  local_path : String
  info : RepoInfo
  deriving DecidableEq, Repr

/-- `subprocess.CalledProcessError`: return code and stderr, already split
into lines (`e.stderr.splitlines()`). -/
structure CmdError where
  returncode : Int
  stderr : List String
  deriving DecidableEq, Repr

/-- One observable effect of an operation. -/
inductive Event where
  | exec (args : List String)
  | clientInfo
  | clientUpdate
  | clientStatus
  | out (s : String)
  | err (s : String)
  | fdOut (s : String)
  deriving DecidableEq, Repr

/-- The remote SVN service and local working copies, as an opaque stateful
oracle: `exec` answers a subprocess invocation, `info` is what
`client.info()` would now return, `status` what `client.status()` yields,
`update` the state change of `client.update()`. -/
structure Oracle (W : Type) where
  exec : W → List String → Except CmdError (List String) × W
  info : W → RepoInfo
  status : W → List Change
  update : W → W

/-- An operation's result: value, successor world and event trace. -/
structure Step (W : Type) (α : Type) where
  val : α
  world : W
  trace : List Event
  deriving DecidableEq, Repr

/-- The subprocess invocations of a trace, in order. -/
def execArgsOf : List Event → List (List String)
  | [] => []
  | Event.exec args :: es => args :: execArgsOf es
  | _ :: es => execArgsOf es

/-- `Repo.__str__`: `colored(self.local_path, 'blue')`, colour stripped. -/
def repoStr (r : Repo) : String := r.local_path

/-- `Repo._printError`. -/
def printError (e : CmdError) : List Event :=
  Event.err ("Failed (" ++ toString e.returncode ++ "):\n")
    :: e.stderr.map (fun line => Event.err ("  " ++ line ++ "\n"))

def Repo.baseurl (r : Repo) : String :=
  r.info.repository_root ++ "/" ++ r.local_path

/-- `Repo.makeUrl`. -/
def Repo.makeUrl (r : Repo) (parts : List String) : String :=
  joinWith "/" (r.baseurl :: parts)

/-- `Repo.currentPath` (raises on a URL the regex does not match: `none`). -/
def Repo.currentPath (r : Repo) : Option String :=
  currentPathOpt r.info.url

/-- `Repo.currentBranch`. -/
def Repo.currentBranch (r : Repo) : Option String :=
  r.currentPath.map basename

/-- `Repo.pendingChanges`, with the status snapshot passed explicitly. -/
def pendingChanges (mask : List SvnStatus) (status : List Change) : List Change :=
  status.filter (fun c => mask.contains c.type)

/-! ## Config and revision-set parsing -/

/-- `readConfig`: lines of the file, stripped, with `#` comments and blanks
skipped. -/
def readConfig (contents : String) : List String :=
  ((pySplitChar contents '\n').map pyStrip).filter
    (fun e => !pyStartsWith e "#" && !(e.length = 0))

def revSetMsgAt : String :=
  "Definition must contain '@' between repository and revision."

def revSetMsgNum : String := "Revision must be a number"

/-- Python `dict` assignment `d[k] = v`: replace in place or append. -/
def dictInsert (d : List (String × String)) (k v : String) :
    List (String × String) :=
  if d.any (fun p => p.1 == k) then
    d.map (fun p => if p.1 == k then (k, v) else p)
  else d ++ [(k, v)]

/-- Python `dict.get(k, None)`. -/
def dictGet (d : List (String × String)) (k : String) : Option String :=
  (d.find? (fun p => p.1 == k)).map Prod.snd

/-- One iteration of `Update.loadRevSet`'s loop: `index` is the 0-based
position among `readConfig`'s entries; `_err` reports `index + 1`.
Warnings are modelled as `(reported line number, message)` pairs. -/
def loadRevSetStep (acc : List (String × String) × List (Nat × String))
    (ie : Nat × String) : List (String × String) × List (Nat × String) :=
  match pySplitChar ie.2 '@' with
  | [l, rv] =>
    let revision := pyStrip rv
    if pyIsDigit revision then (dictInsert acc.1 (pyStrip l) revision, acc.2)
    else (acc.1, acc.2 ++ [(ie.1 + 1, revSetMsgNum)])
  | _ => (acc.1, acc.2 ++ [(ie.1 + 1, revSetMsgAt)])

/-- `Update.loadRevSet`: the revision-set dictionary and the warnings. -/
def loadRevSet (contents : String) :
    List (String × String) × List (Nat × String) :=
  (readConfig contents).enum.foldl loadRevSetStep ([], [])

/-- The warning a single enumerated `readConfig` entry contributes: the
reported line number is one more than the entry's 0-based position in
`readConfig`'s output (its position among the non-comment, non-blank
lines), independent of the entry's physical position in the file. -/
def revSetWarnOf (ie : Nat × String) : Option (Nat × String) :=
  match pySplitChar ie.2 '@' with
  | [_, rv] =>
    if pyIsDigit (pyStrip rv) then none else some (ie.1 + 1, revSetMsgNum)
  | _ => some (ie.1 + 1, revSetMsgAt)

/-! ## Branch topology and working-copy operations

Each returns a `Step`; an operation that can hit the uncaught `TypeError`
of `currentPath` on a non-matching URL returns an `Option (Step _ _)`,
`none` standing for that crash. -/

variable {W : Type}

/-- The warning `'<repo>' branch '<b>' does not exist, skipping`. -/
def msgNoBranchSkip (r : Repo) (b : String) : String :=
  "'" ++ repoStr r ++ "' branch '" ++ b ++ "' does not exist, skipping\n"

/-- `Repo.branchExists`: one `svn list` query; `True` on success, any
`CalledProcessError` is caught and becomes `False`. -/
def Repo.branchExists (o : Oracle W) (w : W) (r : Repo) (name : String) :
    Step W Bool :=
  let branch_url := r.makeUrl ["branches", name]
  match o.exec w ["svn", "list", branch_url] with
  | (Except.ok _, w2) => ⟨true, w2, [Event.exec ["svn", "list", branch_url]]⟩
  | (Except.error _, w2) => ⟨false, w2, [Event.exec ["svn", "list", branch_url]]⟩

/-- `Repo.createBranchFromTrunk`. -/
def Repo.createBranchFromTrunk (o : Oracle W) (w : W) (r : Repo)
    (name : String) : Step W Unit :=
  let s := r.branchExists o w name
  if s.val then
    ⟨(), s.world, s.trace ++
      [Event.out ("'" ++ repoStr r ++ "' branch '" ++ name ++ "' exists\n")]⟩
  else
    let trunk_url := r.makeUrl ["trunk"]
    let branch_url := r.makeUrl ["branches", name]
    let commitmsg := "-m\"Creating branch '" ++ name ++ "' from trunk.\""
    let args := ["svn", "copy", trunk_url, branch_url, commitmsg]
    let ev := s.trace ++
      [Event.out ("'" ++ repoStr r ++ "' creating branch '" ++ name ++ "' from trunk\n"),
       Event.exec args]
    match o.exec s.world args with
    | (Except.ok _, w2) => ⟨(), w2, ev⟩
    | (Except.error e, w2) => ⟨(), w2, ev ++ printError e⟩

/-- `Repo.createBranchFromBranch`. -/
def Repo.createBranchFromBranch (o : Oracle W) (w : W) (r : Repo)
    (source target : String) : Step W Unit :=
  let s := r.branchExists o w source
  if !s.val then
    ⟨(), s.world, s.trace ++
      [Event.out ("'" ++ repoStr r ++ "' source branch '" ++ source ++ "' does not exist\n")]⟩
  else
    let t := r.branchExists o s.world target
    if t.val then
      ⟨(), t.world, s.trace ++ t.trace ++
        [Event.out ("'" ++ repoStr r ++ "' branch '" ++ target ++ "' exists\n")]⟩
    else
      let source_url := r.makeUrl ["branches", source]
      let target_url := r.makeUrl ["branches", target]
      let commitmsg :=
        "-m\"Creating branch '" ++ target ++ "' from branch '" ++ source ++ "'.\""
      let args := ["svn", "copy", source_url, target_url, commitmsg]
      let ev := s.trace ++ t.trace ++
        [Event.out ("'" ++ repoStr r ++ "' creating branch '" ++ target ++
          "' from branch '" ++ source ++ "'\n"),
         Event.exec args]
      match o.exec t.world args with
      | (Except.ok _, w2) => ⟨(), w2, ev⟩
      | (Except.error e, w2) => ⟨(), w2, ev ++ printError e⟩

/-- The tail of `Repo.checkoutBranch` after URL resolution: print, then
`svn switch`.  Note: no `_updateInfo` call follows the switch. -/
def checkoutGo (o : Oracle W) (w : W) (r : Repo) (name url : String)
    (pre : List Event) : Step W Repo :=
  let ev := pre ++
    [Event.out ("'" ++ repoStr r ++ "' checking out branch '" ++ name ++ "'\n")]
  let args := ["svn", "switch", url, r.local_path]
  match o.exec w args with
  | (Except.ok _, w2) => ⟨r, w2, ev ++ [Event.exec args]⟩
  | (Except.error e, w2) => ⟨r, w2, ev ++ [Event.exec args] ++ printError e⟩

/-- `Repo.checkoutBranch`. -/
def Repo.checkoutBranch (o : Oracle W) (w : W) (r : Repo) (name : String) :
    Option (Step W Repo) :=
  match r.currentBranch with
  | none => none
  | some cb =>
    if cb = name then
      some ⟨r, w, [Event.err ("'" ++ repoStr r ++ "' already on branch '" ++ name ++ "'\n")]⟩
    else if name ≠ "trunk" then
      let s := r.branchExists o w name
      if !s.val then
        some ⟨r, s.world, s.trace ++ [Event.err (msgNoBranchSkip r name)]⟩
      else
        some (checkoutGo o s.world r name (r.makeUrl ["branches", name]) s.trace)
    else
      some (checkoutGo o w r name (r.makeUrl [name]) [])

/-- `Repo.deleteBranch`.  The self-deletion guard is
`self.currentPath.endswith(name)`, a suffix test on the current path. -/
def Repo.deleteBranch (o : Oracle W) (w : W) (r : Repo) (name : String)
    (archive : Bool) : Option (Step W Unit) :=
  let s := r.branchExists o w name
  if !s.val then
    some ⟨(), s.world, s.trace ++
      [Event.err ("'" ++ repoStr r ++ "' branch '" ++ name ++ "' does not exist\n")]⟩
  else
    match r.currentPath with
    | none => none
    | some cp =>
      if pyEndsWith cp name then
        some ⟨(), s.world, s.trace ++
          [Event.err ("'" ++ repoStr r ++ "' is currently on branch '" ++ name ++
            "', cannot delete\n")]⟩
      else
        let branch_url := r.makeUrl ["branches", name]
        if !archive then
          let commitmsg := "-m\"Deleting branch '" ++ name ++ "'\""
          let args := ["svn", "rm", branch_url, commitmsg]
          let ev := s.trace ++
            [Event.out ("'" ++ repoStr r ++ "' deleting branch '" ++ name ++ "'\n"),
             Event.exec args]
          match o.exec s.world args with
          | (Except.ok _, w2) => some ⟨(), w2, ev⟩
          | (Except.error e, w2) => some ⟨(), w2, ev ++ printError e⟩
        else
          let commitmsg := "-m\"Archiving branch '" ++ name ++ "'\""
          let archive_url := r.makeUrl ["branches", name ++ ".closed"]
          let args := ["svn", "rename", branch_url, archive_url, commitmsg]
          let ev := s.trace ++
            [Event.out ("'" ++ repoStr r ++ "' archiving branch '" ++ name ++ "'\n"),
             Event.exec args]
          match o.exec s.world args with
          | (Except.ok _, w2) => some ⟨(), w2, ev⟩
          | (Except.error e, w2) => some ⟨(), w2, ev ++ printError e⟩

/-- The final stage of `Repo.diffBranch`: the self-diff guard, then
`svn diff` streamed to the caller's sink. -/
def diffFinal (o : Oracle W) (w : W) (r : Repo)
    (old old_url new new_url : String) (pre : List Event) : Step W Unit :=
  if old = new then
    ⟨(), w, pre ++
      [Event.err ("'" ++ repoStr r ++ "' can not diff '" ++ new ++ "' against '" ++
        old ++ "'\n")]⟩
  else
    let args := ["svn", "diff", "--old", old_url, "--new", new_url]
    match o.exec w args with
    | (Except.ok lines, w2) =>
      ⟨(), w2, pre ++ [Event.exec args] ++ lines.map (fun l => Event.fdOut (l ++ "\n"))⟩
    | (Except.error e, w2) => ⟨(), w2, pre ++ [Event.exec args] ++ printError e⟩

/-- The `new` operand's resolution inside `Repo.diffBranch`: existence is
checked (a remote listing query) before the self-diff guard runs. -/
def diffResolveNew (o : Oracle W) (w : W) (r : Repo)
    (old old_url new : String) (pre : List Event) : Step W Unit :=
  if new ≠ "trunk" then
    let s := r.branchExists o w new
    if !s.val then
      ⟨(), s.world, pre ++ s.trace ++ [Event.err (msgNoBranchSkip r new)]⟩
    else
      diffFinal o s.world r old old_url new (r.makeUrl ["branches", new])
        (pre ++ s.trace)
  else
    diffFinal o w r old old_url new (r.makeUrl ["trunk"]) pre

/-- `Repo.diffBranch`: `old` resolution, then the default of `new` from the
current path, then `new` resolution, then the self-diff guard. -/
def Repo.diffBranch (o : Oracle W) (w : W) (r : Repo) (old : String)
    (new? : Option String) : Option (Step W Unit) :=
  if old ≠ "trunk" then
    let s := r.branchExists o w old
    if !s.val then
      some ⟨(), s.world, s.trace ++ [Event.err (msgNoBranchSkip r old)]⟩
    else
      let old_url := r.makeUrl ["branches", old]
      match new? with
      | some n => some (diffResolveNew o s.world r old old_url n s.trace)
      | none =>
        match r.currentPath with
        | none => none
        | some cp =>
          some (diffResolveNew o s.world r old old_url
            (pyReplace cp "branches/" "") s.trace)
  else
    let old_url := r.makeUrl ["trunk"]
    match new? with
    | some n => some (diffResolveNew o w r old old_url n [])
    | none =>
      match r.currentPath with
      | none => none
      | some cp =>
        some (diffResolveNew o w r old old_url (pyReplace cp "branches/" "") [])

/-- The `svn up` command line of `Repo.update`. -/
def updateCmd (path : String) (revision : Option String) : List String :=
  ["svn", "up"] ++
    (match revision with
     | some rev => ["-r", rev]
     | none => []) ++ [path]

/-- `Repo.update`: on success `_updateInfo` refreshes the cached info and
the new revision is reported. -/
def Repo.update (o : Oracle W) (w : W) (r : Repo) (revision : Option String) :
    Step W Repo :=
  let cmd := updateCmd r.local_path revision
  let pre := [Event.out ("'" ++ repoStr r ++ "' updating... ")]
  match o.exec w cmd with
  | (Except.ok _, w2) =>
    let info2 := o.info w2
    ⟨{ r with info := info2 }, w2,
      pre ++ [Event.exec cmd, Event.clientInfo,
        Event.out ("at revision #" ++ toString info2.commit_revision ++ "\n")]⟩
  | (Except.error e, w2) => ⟨r, w2, pre ++ [Event.exec cmd] ++ printError e⟩

/-- The argument vector of `Repo.commit`'s `svn commit` invocation: the
committable paths and `'"%s"' % message` — the message wrapped in literal
double quotes. -/
def commitArgs (changes : List Change) (message : String) : List String :=
  ["svn", "commit"] ++ changes.map (fun c => c.name) ++
    ["-m", "\"" ++ message ++ "\""]

/-- `Repo.commit`: status query, empty-set early exit, else commit,
`client.update()`, `_updateInfo`, and the post-commit revision report. -/
def Repo.commit (o : Oracle W) (w : W) (r : Repo) (message : String) :
    Step W Repo :=
  let changes := pendingChanges SVN_COMMIT_MASK (o.status w)
  if changes.length = 0 then
    ⟨r, w, [Event.clientStatus,
      Event.out ("'" ++ repoStr r ++ "' no pending changes, skipping.\n")]⟩
  else
    let args := commitArgs changes message
    let pre := [Event.clientStatus,
      Event.out ("'" ++ repoStr r ++ "' committing " ++ toString changes.length ++
        " changes... ")]
    match o.exec w args with
    | (Except.ok _, w2) =>
      let w3 := o.update w2
      let info2 := o.info w3
      ⟨{ r with info := info2 }, w3,
        pre ++ [Event.exec args, Event.clientUpdate, Event.clientInfo,
          Event.out ("at revision #" ++ toString info2.commit_revision ++ "\n")]⟩
    | (Except.error e, w2) => ⟨r, w2, pre ++ [Event.exec args] ++ printError e⟩

/-- The `svn merge` command line: `--dry-run` when asked, `-r` only when
the revision argument is truthy (neither `None` nor the empty string). -/
def mergeCmd (url path : String) (dryrun : Bool) (revision : Option String) :
    List String :=
  ["svn", "merge", "--non-interactive"] ++
    (if dryrun then ["--dry-run"] else []) ++
    (match revision with
     | some rev => if rev.isEmpty then [] else ["-r", rev]
     | none => []) ++ [url, path]

/-- The tail of `Repo.merge` after URL resolution (the doubled "from from"
is the source's own output). -/
def mergeGo (o : Oracle W) (w : W) (r : Repo) (branch cb url : String)
    (dryrun : Bool) (revision : Option String) (pre : List Event) :
    Step W Unit :=
  let cmd := mergeCmd url r.local_path dryrun revision
  let ev := pre ++
    [Event.out ("'" ++ repoStr r ++ "' merging changes from from '" ++ branch ++
      "' into '" ++ cb ++ "'\n")]
  match o.exec w cmd with
  | (Except.ok lines, w2) =>
    ⟨(), w2, ev ++ [Event.exec cmd] ++ lines.map (fun l => Event.out ("   " ++ l ++ "\n"))⟩
  | (Except.error e, w2) => ⟨(), w2, ev ++ [Event.exec cmd] ++ printError e⟩

/-- `Repo.merge`: the self-merge guard compares against `currentBranch`
before anything else runs. -/
def Repo.merge (o : Oracle W) (w : W) (r : Repo) (branch : String)
    (dryrun : Bool) (revision : Option String) : Option (Step W Unit) :=
  match r.currentBranch with
  | none => none
  | some cb =>
    if branch = cb then
      some ⟨(), w, [Event.err ("'" ++ repoStr r ++ "' can not merge branch '" ++
        branch ++ "' with itself\n")]⟩
    else if branch ≠ "trunk" then
      let s := r.branchExists o w branch
      if !s.val then
        some ⟨(), s.world, s.trace ++ [Event.err (msgNoBranchSkip r branch)]⟩
      else
        some (mergeGo o s.world r branch cb (r.makeUrl ["branches", branch])
          dryrun revision s.trace)
    else
      some (mergeGo o w r branch cb (r.makeUrl ["trunk"]) dryrun revision [])

/-- `Update.run`'s fleet loop: each repository is updated at
`revset.get(repo.local_path, None)`. -/
def updateRun (o : Oracle W) (w : W) (repos : List Repo)
    (revset : List (String × String)) : Step W (List Repo) :=
  match repos with
  | [] => ⟨[], w, []⟩
  | r :: rest =>
    let s := r.update o w (dictGet revset r.local_path)
    let s2 := updateRun o s.world rest revset
    ⟨s.val :: s2.val, s2.world, s.trace ++ s2.trace⟩

/-! ## A concrete remote model for topology-level claims

`svn list url` succeeds exactly when `url` is in the world's `existing`
set; a successful `svn copy` makes its destination exist; every other
command succeeds with no effect; `copyOk` governs whether copies succeed. -/

structure SvnWorld where
  existing : List String
  copyOk : Bool
  deriving DecidableEq, Repr

def svnOracle : Oracle SvnWorld where
  exec w args :=
    match args with
    | ["svn", "list", url] =>
      if w.existing.contains url then (Except.ok [], w)
      else (Except.error ⟨1, []⟩, w)
    | ["svn", "copy", _, dst, _] =>
      if w.copyOk then (Except.ok [], { w with existing := w.existing ++ [dst] })
      else (Except.error ⟨1, []⟩, w)
    | _ => (Except.ok [], w)
  info _ := ⟨0, "", ""⟩
  status _ := []
  update w := w

/-! ## Concrete fixtures -/

/-- A repository whose working copy is switched to `branches/myfeature`. -/
def cexRepo : Repo :=
  ⟨"proj", ⟨10, "http://svn.example.com",
    "http://svn.example.com/proj/branches/myfeature"⟩⟩

/-- A repository whose working copy is on `trunk`. -/
def trunkRepo : Repo :=
  ⟨"proj", ⟨10, "http://svn.example.com", "http://svn.example.com/proj/trunk"⟩⟩

/-- A remote on which exactly `branches/feature` of `proj` exists. -/
def cexWorld : SvnWorld :=
  ⟨["http://svn.example.com/proj/branches/feature"], true⟩

/-- A stateless remote on which every invocation succeeds: one modified
file `a.txt`, `client.info()` at revision 11. -/
def fixtureOracle : Oracle Unit where
  exec _ _ := (Except.ok [], ())
  info _ := ⟨11, "http://svn.example.com", "http://svn.example.com/proj/trunk"⟩
  status _ := [⟨SvnStatus.modified, "a.txt"⟩]
  update u := u

/-! ## Trace helper lemmas -/

@[simp] theorem execArgsOf_nil : execArgsOf [] = [] := rfl

@[simp] theorem execArgsOf_cons_exec (a : List String) (es : List Event) :
    execArgsOf (Event.exec a :: es) = a :: execArgsOf es := rfl

@[simp] theorem execArgsOf_cons_out (s : String) (es : List Event) :
    execArgsOf (Event.out s :: es) = execArgsOf es := rfl

@[simp] theorem execArgsOf_cons_err (s : String) (es : List Event) :
    execArgsOf (Event.err s :: es) = execArgsOf es := rfl

@[simp] theorem execArgsOf_cons_fdOut (s : String) (es : List Event) :
    execArgsOf (Event.fdOut s :: es) = execArgsOf es := rfl

@[simp] theorem execArgsOf_cons_clientInfo (es : List Event) :
    execArgsOf (Event.clientInfo :: es) = execArgsOf es := rfl

@[simp] theorem execArgsOf_cons_clientUpdate (es : List Event) :
    execArgsOf (Event.clientUpdate :: es) = execArgsOf es := rfl

@[simp] theorem execArgsOf_cons_clientStatus (es : List Event) :
    execArgsOf (Event.clientStatus :: es) = execArgsOf es := rfl

@[simp] theorem execArgsOf_append (a b : List Event) :
    execArgsOf (a ++ b) = execArgsOf a ++ execArgsOf b := by
  induction a with
  | nil => rfl
  | cons e es ih => cases e <;> simp [ih]

@[simp] theorem execArgsOf_printError (e : CmdError) :
    execArgsOf (printError e) = [] := by
  unfold printError
  simp only [execArgsOf_cons_err]
  induction e.stderr with
  | nil => rfl
  | cons m ms ih => simpa using ih

@[simp] theorem clientInfo_not_mem_printError (e : CmdError) :
    Event.clientInfo ∉ printError e := by
  simp [printError]

theorem branchExists_trace {W : Type} (o : Oracle W) (w : W) (r : Repo)
    (name : String) :
    (r.branchExists o w name).trace =
      [Event.exec ["svn", "list", r.makeUrl ["branches", name]]] := by
  simp only [Repo.branchExists]
  cases hx : o.exec w ["svn", "list", r.makeUrl ["branches", name]] with
  | mk res w2 => cases res <;> simp

/-! ## Claim theorems -/

/-- C9: `branchExists(name)` always returns a boolean and never raises.
It issues exactly one remote listing query, against `branches/<name>`;
it returns `true` exactly when the query succeeds, and any query failure
(whatever its error) yields `false` rather than a propagated error. -/
theorem branchExists_one_query_nonraising :
    ∀ (W : Type) (o : Oracle W) (w : W) (r : Repo) (name : String),
      (r.branchExists o w name).trace =
        [Event.exec ["svn", "list", r.makeUrl ["branches", name]]] ∧
      ((r.branchExists o w name).val = true ↔
        ∃ lines w2, o.exec w ["svn", "list", r.makeUrl ["branches", name]] =
          (Except.ok lines, w2)) ∧
      (∀ e w2, o.exec w ["svn", "list", r.makeUrl ["branches", name]] =
          (Except.error e, w2) → (r.branchExists o w name).val = false) := by
  intro W o w r name
  refine ⟨branchExists_trace o w r name, ?_, ?_⟩
  · simp only [Repo.branchExists]
    cases hx : o.exec w ["svn", "list", r.makeUrl ["branches", name]] with
    | mk res w2 => cases res <;> simp_all
  · simp only [Repo.branchExists]
    cases hx : o.exec w ["svn", "list", r.makeUrl ["branches", name]] with
    | mk res w2 =>
      cases res with
      | error e => intro e' w2' h; simp
      | ok lines => intro e' w2' h; simp_all

/-- C9 witness: on a remote where `branches/nope` does not exist, the
listing query fails and `branchExists` returns `false` without raising. -/
theorem branchExists_one_query_nonraising_witness :
    (Repo.branchExists svnOracle ⟨[], true⟩ cexRepo "nope").val = false :=
  (branchExists_one_query_nonraising SvnWorld svnOracle ⟨[], true⟩ cexRepo
    "nope").2.2 ⟨1, []⟩ ⟨[], true⟩ rfl

/-- With equal operands and `trunk`, `diffFinal`'s self-diff guard fires
at once: no existence query was needed, only the warning is emitted. -/
theorem diffResolveNew_self_trunk {W : Type} (o : Oracle W) (w : W) (r : Repo)
    (old_url : String) (pre : List Event) :
    diffResolveNew o w r "trunk" old_url "trunk" pre =
      ⟨(), w, pre ++ [Event.err ("'" ++ repoStr r ++ "' can not diff '" ++
        "trunk" ++ "' against '" ++ "trunk" ++ "'\n")]⟩ := by
  simp [diffResolveNew, diffFinal]

/-- With equal non-`trunk` operands and a failing existence query, the
`new` resolution rejects with the missing-branch warning. -/
theorem diffResolveNew_self_noexist {W : Type} (o : Oracle W) (w : W) (r : Repo)
    (x old_url : String) (pre : List Event) (hx : x ≠ "trunk")
    (hbv : (r.branchExists o w x).val = false) :
    diffResolveNew o w r x old_url x pre =
      ⟨(), (r.branchExists o w x).world,
        pre ++ (r.branchExists o w x).trace ++
          [Event.err (msgNoBranchSkip r x)]⟩ := by
  simp [diffResolveNew, hx, hbv]

/-- With equal non-`trunk` operands and a succeeding existence query, the
self-diff guard fires after the query. -/
theorem diffResolveNew_self_exists {W : Type} (o : Oracle W) (w : W) (r : Repo)
    (x old_url : String) (pre : List Event) (hx : x ≠ "trunk")
    (hbv : (r.branchExists o w x).val = true) :
    diffResolveNew o w r x old_url x pre =
      ⟨(), (r.branchExists o w x).world,
        pre ++ (r.branchExists o w x).trace ++
          [Event.err ("'" ++ repoStr r ++ "' can not diff '" ++ x ++
            "' against '" ++ x ++ "'\n")]⟩ := by
  simp [diffResolveNew, diffFinal, hx, hbv]

/-- C1 counterexample: against a remote where `branches/feature` exists,
`diffBranch("feature", "feature")` does reject with a warning, but only
after issuing two remote existence-listing queries — the claim's "issues
no remote call (neither a mutation nor an existence-listing query)" is
false for `diffBranch(x, x)` with `x` other than `trunk`. -/
theorem diffBranch_self_issues_remote_queries :
    (Repo.diffBranch svnOracle cexWorld cexRepo "feature" (some "feature")).map
        (fun st => (execArgsOf st.trace, (execArgsOf st.trace).isEmpty,
          st.trace.getLast?)) =
      some ([["svn", "list", "http://svn.example.com/proj/branches/feature"],
             ["svn", "list", "http://svn.example.com/proj/branches/feature"]],
            false,
            some (Event.err "'proj' can not diff 'feature' against 'feature'\n")) := by
  decide

/-- C1 amended: `merge(currentBranch)` always rejects with a warning and
issues no remote call at all; `diffBranch(x, x)` always rejects with a
warning and issues no mutating remote call — every subprocess invocation
in its trace is the existence-listing query on `branches/<x>` (there are
none when `x` is `trunk`). -/
theorem merge_self_diff_self_reject :
    (∀ (W : Type) (o : Oracle W) (w : W) (r : Repo) (x : String) (d : Bool)
        (rev : Option String), r.currentBranch = some x →
      r.merge o w x d rev =
        some ⟨(), w, [Event.err ("'" ++ repoStr r ++ "' can not merge branch '" ++
          x ++ "' with itself\n")]⟩) ∧
    (∀ (W : Type) (o : Oracle W) (w : W) (r : Repo) (x : String),
      ∃ st, r.diffBranch o w x (some x) = some st ∧
        (∀ a ∈ execArgsOf st.trace,
          a = ["svn", "list", r.makeUrl ["branches", x]]) ∧
        (∃ m, Event.err m ∈ st.trace)) := by
  constructor
  · intro W o w r x d rev hcb
    simp [Repo.merge, hcb]
  · intro W o w r x
    by_cases hx : x = "trunk"
    · subst hx
      have hd : Repo.diffBranch o w r "trunk" (some "trunk") =
          some ⟨(), w, [] ++ [Event.err ("'" ++ repoStr r ++ "' can not diff '" ++
            "trunk" ++ "' against '" ++ "trunk" ++ "'\n")]⟩ := by
        simp only [Repo.diffBranch, ne_eq, not_true_eq_false, if_false]
        rw [diffResolveNew_self_trunk]
      refine ⟨_, hd, ?_, ?_⟩
      · intro a ha
        simp at ha
      · exact ⟨"'" ++ repoStr r ++ "' can not diff '" ++ "trunk" ++
          "' against '" ++ "trunk" ++ "'\n", by simp⟩
    · simp only [Repo.diffBranch, ne_eq, hx, not_false_eq_true, if_true]
      cases hbv : (r.branchExists o w x).val with
      | false =>
        simp only [hbv, Bool.not_false, if_true]
        refine ⟨_, rfl, ?_, ⟨msgNoBranchSkip r x, by simp⟩⟩
        intro a ha
        simp only [execArgsOf_append, branchExists_trace, execArgsOf_cons_exec,
          execArgsOf_nil, List.append_nil, execArgsOf_cons_err] at ha
        simpa using ha
      | true =>
        simp only [hbv, Bool.not_true, Bool.false_eq_true, if_false]
        cases hbv2 : (r.branchExists o (r.branchExists o w x).world x).val with
        | false =>
          refine ⟨_, rfl, ?_, ?_⟩
          · intro a ha
            rw [diffResolveNew_self_noexist o _ r x _ _ hx hbv2] at ha
            simp only [execArgsOf_append, branchExists_trace,
              execArgsOf_cons_exec, execArgsOf_nil, List.append_nil,
              execArgsOf_cons_err] at ha
            rcases List.mem_append.mp ha with h | h <;> simpa using h
          · rw [diffResolveNew_self_noexist o _ r x _ _ hx hbv2]
            exact ⟨msgNoBranchSkip r x, by simp⟩
        | true =>
          refine ⟨_, rfl, ?_, ?_⟩
          · intro a ha
            rw [diffResolveNew_self_exists o _ r x _ _ hx hbv2] at ha
            simp only [execArgsOf_append, branchExists_trace,
              execArgsOf_cons_exec, execArgsOf_nil, List.append_nil,
              execArgsOf_cons_err] at ha
            rcases List.mem_append.mp ha with h | h <;> simpa using h
          · rw [diffResolveNew_self_exists o _ r x _ _ hx hbv2]
            exact ⟨"'" ++ repoStr r ++ "' can not diff '" ++ x ++
              "' against '" ++ x ++ "'\n", by simp⟩

/-- C1 witness: at a repository switched to `branches/myfeature`, merging
`myfeature` is rejected with only the warning in the trace. -/
theorem merge_self_diff_self_reject_witness :
    Repo.merge svnOracle cexWorld cexRepo "myfeature" false none =
      some ⟨(), cexWorld, [Event.err ("'" ++ repoStr cexRepo ++
        "' can not merge branch 'myfeature' with itself\n")]⟩ :=
  merge_self_diff_self_reject.1 SvnWorld svnOracle cexWorld cexRepo "myfeature"
    false none (by decide)

/-- `checkoutGo` (the switch stage of `checkoutBranch`) returns the
repository record unchanged and adds no `clientInfo` refresh event. -/
theorem checkoutGo_val_trace {W : Type} (o : Oracle W) (w : W) (r : Repo)
    (name url : String) (pre : List Event) :
    (checkoutGo o w r name url pre).val = r ∧
      (Event.clientInfo ∈ (checkoutGo o w r name url pre).trace ↔
        Event.clientInfo ∈ pre) := by
  unfold checkoutGo
  cases hx : o.exec w ["svn", "switch", url, r.local_path] with
  | mk res w2 => cases res <;> simp [hx]

/-- C2 counterexample: a successful `checkoutBranch` (the existence query
succeeds and the `svn switch` succeeds) leaves the cached metadata exactly
as it was — no `clientInfo` refresh occurs in the trace and the cached
info differs from what `client.info()` would now return — so the claim's
"after every successful mutating operation — update, commit, and checkout
— the cached URL and revision are re-fetched" is false for checkout. -/
theorem checkoutBranch_leaves_info_stale :
    Repo.checkoutBranch svnOracle cexWorld cexRepo "feature" =
      some ⟨cexRepo, cexWorld,
        [Event.exec ["svn", "list", "http://svn.example.com/proj/branches/feature"],
         Event.out "'proj' checking out branch 'feature'\n",
         Event.exec ["svn", "switch",
           "http://svn.example.com/proj/branches/feature", "proj"]]⟩ ∧
    svnOracle.info cexWorld ≠ cexRepo.info := by
  decide

/-- C2 amended: after a successful `update` and after a successful
`commit` the cached info record (URL and revision at once) is re-fetched;
`checkoutBranch`, however, never refreshes — whatever it returns carries
the old cached info and its trace holds no `clientInfo` event. -/
theorem refresh_after_update_commit_not_checkout :
    (∀ (W : Type) (o : Oracle W) (w : W) (r : Repo) (rev : Option String)
        (lines : List String) (w2 : W),
      o.exec w (updateCmd r.local_path rev) = (Except.ok lines, w2) →
      (r.update o w rev).val.info = o.info w2 ∧
        Event.clientInfo ∈ (r.update o w rev).trace) ∧
    (∀ (W : Type) (o : Oracle W) (w : W) (r : Repo) (m : String)
        (lines : List String) (w2 : W),
      pendingChanges SVN_COMMIT_MASK (o.status w) ≠ [] →
      o.exec w (commitArgs (pendingChanges SVN_COMMIT_MASK (o.status w)) m) =
        (Except.ok lines, w2) →
      (r.commit o w m).val.info = o.info (o.update w2) ∧
        Event.clientInfo ∈ (r.commit o w m).trace) ∧
    (∀ (W : Type) (o : Oracle W) (w : W) (r : Repo) (name : String)
        (st : Step W Repo),
      r.checkoutBranch o w name = some st →
      st.val = r ∧ Event.clientInfo ∉ st.trace) := by
  refine ⟨?_, ?_, ?_⟩
  · intro W o w r rev lines w2 hexec
    simp [Repo.update, hexec]
  · intro W o w r m lines w2 hne hexec
    have hlen : ¬(pendingChanges SVN_COMMIT_MASK (o.status w)).length = 0 := by
      simpa [List.length_eq_zero] using hne
    simp [Repo.commit, hlen, hexec]
  · intro W o w r name st hck
    unfold Repo.checkoutBranch at hck
    split at hck
    · simp at hck
    · split at hck
      · obtain rfl := (Option.some.inj hck).symm
        simp
      · split at hck
        · dsimp only at hck
          split at hck
          · obtain rfl := (Option.some.inj hck).symm
            simp [branchExists_trace]
          · obtain rfl := (Option.some.inj hck).symm
            have h := checkoutGo_val_trace o (r.branchExists o w name).world r
              name (r.makeUrl ["branches", name]) (r.branchExists o w name).trace
            refine ⟨h.1, fun hm => ?_⟩
            have := h.2.mp hm
            simp [branchExists_trace] at this
        · obtain rfl := (Option.some.inj hck).symm
          have h := checkoutGo_val_trace o w r name (r.makeUrl [name]) []
          exact ⟨h.1, fun hm => by simpa using h.2.mp hm⟩

/-- C2 witness: a successful concrete `update` ends with the cached info
equal to the freshly fetched one and a `clientInfo` refresh in its trace. -/
theorem refresh_after_update_commit_not_checkout_witness :
    (Repo.update fixtureOracle () trunkRepo none).val.info =
        fixtureOracle.info () ∧
      Event.clientInfo ∈ (Repo.update fixtureOracle () trunkRepo none).trace :=
  refresh_after_update_commit_not_checkout.1 Unit fixtureOracle () trunkRepo
    none [] () rfl

/-- C3 counterexample: `branches/feature` exists remotely and the working
copy is on branch `myfeature` — not on `feature` — yet `deleteBranch`
refuses (the guard is `currentPath.endswith(name)`, and
`branches/myfeature` ends with `feature`), issuing no deletion. This
refutes the claim's "if and only if ... not currently switched to that
exact branch". -/
theorem deleteBranch_suffix_guard_refuses :
    Repo.deleteBranch svnOracle cexWorld cexRepo "feature" false =
      some ⟨(), cexWorld,
        [Event.exec ["svn", "list", "http://svn.example.com/proj/branches/feature"],
         Event.err "'proj' is currently on branch 'feature', cannot delete\n"]⟩ ∧
    (Repo.branchExists svnOracle cexWorld cexRepo "feature").val = true ∧
    cexRepo.currentBranch = some "myfeature" ∧
    ("myfeature" : String) ≠ "feature" := by
  decide

/-- C3 amended: `deleteBranch(name, archive)` issues a remote deletion or
rename exactly when the branch exists and the current path does not END
with `name` — a suffix test that also refuses names that merely end the
current branch's name; when it proceeds, `archive = false` removes
`branches/<name>` and `archive = true` renames it to
`branches/<name>.closed`. -/
theorem deleteBranch_guard_characterization :
    ∀ (W : Type) (o : Oracle W) (w : W) (r : Repo) (name : String)
      (archive : Bool) (cp : String),
      r.currentPath = some cp →
      ∃ st, r.deleteBranch o w name archive = some st ∧
        execArgsOf st.trace =
          ["svn", "list", r.makeUrl ["branches", name]] ::
          (if (r.branchExists o w name).val && !pyEndsWith cp name then
            [if archive then
              ["svn", "rename", r.makeUrl ["branches", name],
                r.makeUrl ["branches", name ++ ".closed"],
                "-m\"Archiving branch '" ++ name ++ "'\""]
            else
              ["svn", "rm", r.makeUrl ["branches", name],
                "-m\"Deleting branch '" ++ name ++ "'\""]]
          else []) := by
  intro W o w r name archive cp hcp
  cases hbv : (r.branchExists o w name).val with
  | false =>
    refine ⟨⟨(), (r.branchExists o w name).world,
      (r.branchExists o w name).trace ++
        [Event.err ("'" ++ repoStr r ++ "' branch '" ++ name ++
          "' does not exist\n")]⟩, ?_, ?_⟩
    · simp [Repo.deleteBranch, hbv]
    · simp [branchExists_trace, hbv]
  | true =>
    cases hend : pyEndsWith cp name with
    | true =>
      refine ⟨⟨(), (r.branchExists o w name).world,
        (r.branchExists o w name).trace ++
          [Event.err ("'" ++ repoStr r ++ "' is currently on branch '" ++ name ++
            "', cannot delete\n")]⟩, ?_, ?_⟩
      · simp [Repo.deleteBranch, hbv, hcp, hend]
      · simp [branchExists_trace, hbv, hend]
    | false =>
      cases archive with
      | false =>
        cases hx : o.exec (r.branchExists o w name).world
            ["svn", "rm", r.makeUrl ["branches", name],
             "-m\"Deleting branch '" ++ name ++ "'\""] with
        | mk res w2 =>
          cases res with
          | ok lines =>
            refine ⟨⟨(), w2, (r.branchExists o w name).trace ++
              [Event.out ("'" ++ repoStr r ++ "' deleting branch '" ++ name ++ "'\n"),
               Event.exec ["svn", "rm", r.makeUrl ["branches", name],
                 "-m\"Deleting branch '" ++ name ++ "'\""]]⟩, ?_, ?_⟩
            · simp [Repo.deleteBranch, hbv, hcp, hend, hx]
            · simp [branchExists_trace, hbv, hend]
          | error e =>
            refine ⟨⟨(), w2, (r.branchExists o w name).trace ++
              [Event.out ("'" ++ repoStr r ++ "' deleting branch '" ++ name ++ "'\n"),
               Event.exec ["svn", "rm", r.makeUrl ["branches", name],
                 "-m\"Deleting branch '" ++ name ++ "'\""]] ++ printError e⟩, ?_, ?_⟩
            · simp [Repo.deleteBranch, hbv, hcp, hend, hx]
            · simp [branchExists_trace, hbv, hend]
      | true =>
        cases hx : o.exec (r.branchExists o w name).world
            ["svn", "rename", r.makeUrl ["branches", name],
             r.makeUrl ["branches", name ++ ".closed"],
             "-m\"Archiving branch '" ++ name ++ "'\""] with
        | mk res w2 =>
          cases res with
          | ok lines =>
            refine ⟨⟨(), w2, (r.branchExists o w name).trace ++
              [Event.out ("'" ++ repoStr r ++ "' archiving branch '" ++ name ++ "'\n"),
               Event.exec ["svn", "rename", r.makeUrl ["branches", name],
                 r.makeUrl ["branches", name ++ ".closed"],
                 "-m\"Archiving branch '" ++ name ++ "'\""]]⟩, ?_, ?_⟩
            · simp [Repo.deleteBranch, hbv, hcp, hend, hx]
            · simp [branchExists_trace, hbv, hend]
          | error e =>
            refine ⟨⟨(), w2, (r.branchExists o w name).trace ++
              [Event.out ("'" ++ repoStr r ++ "' archiving branch '" ++ name ++ "'\n"),
               Event.exec ["svn", "rename", r.makeUrl ["branches", name],
                 r.makeUrl ["branches", name ++ ".closed"],
                 "-m\"Archiving branch '" ++ name ++ "'\""]] ++ printError e⟩, ?_, ?_⟩
            · simp [Repo.deleteBranch, hbv, hcp, hend, hx]
            · simp [branchExists_trace, hbv, hend]

/-- C3 witness: on a working copy at `trunk`, deleting the existing branch
`feature` proceeds and issues exactly the `svn rm` mutation. -/
theorem deleteBranch_guard_characterization_witness :
    ∃ st, Repo.deleteBranch svnOracle cexWorld trunkRepo "feature" false = some st ∧
      execArgsOf st.trace =
        ["svn", "list", trunkRepo.makeUrl ["branches", "feature"]] ::
        (if (Repo.branchExists svnOracle cexWorld trunkRepo "feature").val &&
            !pyEndsWith "trunk" "feature" then
          [if false then
            ["svn", "rename", trunkRepo.makeUrl ["branches", "feature"],
              trunkRepo.makeUrl ["branches", "feature" ++ ".closed"],
              "-m\"Archiving branch '" ++ "feature" ++ "'\""]
          else
            ["svn", "rm", trunkRepo.makeUrl ["branches", "feature"],
              "-m\"Deleting branch '" ++ "feature" ++ "'\""]]
        else []) :=
  deleteBranch_guard_characterization SvnWorld svnOracle cexWorld trunkRepo
    "feature" false "trunk" (by decide)

/-- C5 counterexample: with one committable change `a.txt` and message
`msg`, the remote commit invocation is
`svn commit a.txt -m "msg"` where the message operand is the five-character
string `"msg"` including literal double quotes (`'"%s"' % message`), not
the exact given message — refuting "with exactly the given message
string". -/
theorem commit_message_not_exact :
    execArgsOf (Repo.commit fixtureOracle () trunkRepo "msg").trace =
      [["svn", "commit", "a.txt", "-m", "\"msg\""]] ∧
    ["svn", "commit", "a.txt", "-m", "\"msg\""] ≠
      ["svn", "commit", "a.txt", "-m", "msg"] := by
  decide

/-- C5 amended: with a non-empty committable set, `commit(message)` issues
exactly one remote commit invocation, whose operands are exactly the paths
of the committable changes followed by `-m` and the message wrapped in
double-quote characters; on success it refreshes the working-copy state
and reports the post-commit revision. -/
theorem commit_nonempty_invocation :
    ∀ (W : Type) (o : Oracle W) (w : W) (r : Repo) (m : String),
      pendingChanges SVN_COMMIT_MASK (o.status w) ≠ [] →
      execArgsOf (r.commit o w m).trace =
        [commitArgs (pendingChanges SVN_COMMIT_MASK (o.status w)) m] ∧
      commitArgs (pendingChanges SVN_COMMIT_MASK (o.status w)) m =
        ["svn", "commit"] ++
          (pendingChanges SVN_COMMIT_MASK (o.status w)).map (fun c => c.name) ++
          ["-m", "\"" ++ m ++ "\""] ∧
      (∀ lines w2,
        o.exec w (commitArgs (pendingChanges SVN_COMMIT_MASK (o.status w)) m) =
          (Except.ok lines, w2) →
        (r.commit o w m).val.info = o.info (o.update w2) ∧
        Event.out ("at revision #" ++
          toString (o.info (o.update w2)).commit_revision ++ "\n") ∈
          (r.commit o w m).trace) := by
  intro W o w r m hne
  have hlen : ¬(pendingChanges SVN_COMMIT_MASK (o.status w)).length = 0 := by
    simpa [List.length_eq_zero] using hne
  refine ⟨?_, rfl, ?_⟩
  · simp only [Repo.commit, hlen, if_false]
    cases hx : o.exec w (commitArgs (pendingChanges SVN_COMMIT_MASK (o.status w)) m) with
    | mk res w2 => cases res <;> simp [hx]
  · intro lines w2 hx
    simp [Repo.commit, hlen, hx]

/-- C5 witness: the concrete one-change fixture commit issues exactly its
`commitArgs` invocation. -/
theorem commit_nonempty_invocation_witness :
    execArgsOf (Repo.commit fixtureOracle () trunkRepo "fix typo").trace =
      [commitArgs (pendingChanges SVN_COMMIT_MASK (fixtureOracle.status ()))
        "fix typo"] :=
  (commit_nonempty_invocation Unit fixtureOracle () trunkRepo "fix typo"
    (by decide)).1

/-- C4: parsing the revision-set file content
`"libA @ 42\n# comment\n\nlibB @ abc\nlibC\n"` yields exactly the mapping
libA ↦ 42 and exactly two malformed-line warnings, one for the `libB`
entry (non-numeric revision) and one for the `libC` entry (no `@`);
the malformed lines are skipped while the well-formed line still parses,
so they are not fatal to the whole file. -/
theorem loadRevSet_sample :
    loadRevSet "libA @ 42\n# comment\n\nlibB @ abc\nlibC\n" =
      ([("libA", "42")], [(2, revSetMsgNum), (3, revSetMsgAt)]) := by
  decide

/-- C7: whenever the committable change set of the status snapshot is
empty, `commit(message)` returns with the repository and remote untouched,
a "no pending changes" report, and a trace holding no subprocess call at
all — in particular zero remote commit invocations — and no error. -/
theorem commit_empty_changes_skips :
    ∀ (W : Type) (o : Oracle W) (w : W) (r : Repo) (m : String),
      pendingChanges SVN_COMMIT_MASK (o.status w) = [] →
      r.commit o w m =
        ⟨r, w, [Event.clientStatus,
          Event.out ("'" ++ repoStr r ++ "' no pending changes, skipping.\n")]⟩ := by
  intro W o w r m h
  simp [Repo.commit, h]

/-- C7 witness: against the branch-topology remote model, whose status
snapshot is empty, `commit` at a concrete repository only reports. -/
theorem commit_empty_changes_skips_witness :
    Repo.commit svnOracle cexWorld cexRepo "msg" =
      ⟨cexRepo, cexWorld, [Event.clientStatus,
        Event.out ("'" ++ repoStr cexRepo ++ "' no pending changes, skipping.\n")]⟩ :=
  commit_empty_changes_skips SvnWorld svnOracle cexWorld cexRepo "msg" (by decide)

/-- Against the topology remote model, `branchExists` answers `true` on an
existing branch URL, leaving the world unchanged. -/
theorem branchExists_svnOracle_mem (w : SvnWorld) (r : Repo) (name : String)
    (hm : r.makeUrl ["branches", name] ∈ w.existing) :
    Repo.branchExists svnOracle w r name =
      ⟨true, w, [Event.exec ["svn", "list", r.makeUrl ["branches", name]]]⟩ := by
  simp [Repo.branchExists, svnOracle, hm]

/-- Against the topology remote model, `branchExists` answers `false` on a
missing branch URL, leaving the world unchanged. -/
theorem branchExists_svnOracle_notmem (w : SvnWorld) (r : Repo) (name : String)
    (hm : r.makeUrl ["branches", name] ∉ w.existing) :
    Repo.branchExists svnOracle w r name =
      ⟨false, w, [Event.exec ["svn", "list", r.makeUrl ["branches", name]]]⟩ := by
  simp [Repo.branchExists, svnOracle, hm]

/-- Against the topology remote model, a copy with the flag set succeeds
and makes its destination URL exist. -/
theorem svnOracle_copy (w : SvnWorld) (src dst msg : String)
    (hcopy : w.copyOk = true) :
    svnOracle.exec w ["svn", "copy", src, dst, msg] =
      (Except.ok [], ⟨w.existing ++ [dst], w.copyOk⟩) := by
  simp [svnOracle, hcopy]

/-- After `createBranchFromTrunk` with a succeeding copy, the branch URL
exists. -/
theorem createFromTrunk_makes_existing (w : SvnWorld) (r : Repo) (name : String)
    (hcopy : w.copyOk = true) :
    r.makeUrl ["branches", name] ∈
      ((r.createBranchFromTrunk svnOracle w name).world).existing := by
  by_cases hm : r.makeUrl ["branches", name] ∈ w.existing
  · simp [Repo.createBranchFromTrunk, branchExists_svnOracle_mem w r name hm, hm]
  · simp [Repo.createBranchFromTrunk, branchExists_svnOracle_notmem w r name hm,
      svnOracle_copy, hcopy]

/-- `createBranchFromTrunk` on an already-existing branch is a no-op: only
the listing query and the branch-exists message, remote state unchanged. -/
theorem createFromTrunk_existing_noop (w : SvnWorld) (r : Repo) (name : String)
    (hm : r.makeUrl ["branches", name] ∈ w.existing) :
    r.createBranchFromTrunk svnOracle w name =
      ⟨(), w, [Event.exec ["svn", "list", r.makeUrl ["branches", name]],
        Event.out ("'" ++ repoStr r ++ "' branch '" ++ name ++ "' exists\n")]⟩ := by
  simp [Repo.createBranchFromTrunk, branchExists_svnOracle_mem w r name hm]

/-- C6: `createFromTrunk(n)` is idempotent at the topology level — after a
first call has created branch `n` (its copy succeeded, or the branch
already existed), an immediately repeated call leaves the remote state
unchanged, prints the branch-exists message, and issues only the
existence-listing query: zero remote copy invocations. -/
theorem createFromTrunk_second_call_noop :
    ∀ (w : SvnWorld) (r : Repo) (name : String), w.copyOk = true →
      (r.createBranchFromTrunk svnOracle
          (r.createBranchFromTrunk svnOracle w name).world name).world =
        (r.createBranchFromTrunk svnOracle w name).world ∧
      execArgsOf (r.createBranchFromTrunk svnOracle
          (r.createBranchFromTrunk svnOracle w name).world name).trace =
        [["svn", "list", r.makeUrl ["branches", name]]] ∧
      Event.out ("'" ++ repoStr r ++ "' branch '" ++ name ++ "' exists\n") ∈
        (r.createBranchFromTrunk svnOracle
          (r.createBranchFromTrunk svnOracle w name).world name).trace := by
  intro w r name hcopy
  have h1 := createFromTrunk_makes_existing w r name hcopy
  rw [createFromTrunk_existing_noop _ r name h1]
  exact ⟨rfl, rfl, by simp⟩

/-- C6 witness: creating `newfeat` from trunk twice in a row — the second
call issues only the listing query and reports that the branch exists. -/
theorem createFromTrunk_second_call_noop_witness :
    (Repo.createBranchFromTrunk svnOracle
        (Repo.createBranchFromTrunk svnOracle cexWorld trunkRepo "newfeat").world
        trunkRepo "newfeat").world =
      (Repo.createBranchFromTrunk svnOracle cexWorld trunkRepo "newfeat").world ∧
    execArgsOf (Repo.createBranchFromTrunk svnOracle
        (Repo.createBranchFromTrunk svnOracle cexWorld trunkRepo "newfeat").world
        trunkRepo "newfeat").trace =
      [["svn", "list", trunkRepo.makeUrl ["branches", "newfeat"]]] ∧
    Event.out ("'" ++ repoStr trunkRepo ++ "' branch '" ++ "newfeat" ++
        "' exists\n") ∈
      (Repo.createBranchFromTrunk svnOracle
        (Repo.createBranchFromTrunk svnOracle cexWorld trunkRepo "newfeat").world
        trunkRepo "newfeat").trace :=
  createFromTrunk_second_call_noop cexWorld trunkRepo "newfeat" rfl

/-- `Repo.update` issues exactly one subprocess invocation: its `svn up`
command line. -/
theorem update_execArgs {W : Type} (o : Oracle W) (w : W) (r : Repo)
    (rev : Option String) :
    execArgsOf (r.update o w rev).trace = [updateCmd r.local_path rev] := by
  unfold Repo.update
  cases hx : o.exec w (updateCmd r.local_path rev) with
  | mk res w2 => cases res <;> simp [hx]

/-- `dict.get` succeeds exactly on the keys of the dictionary. -/
theorem dictGet_isSome (d : List (String × String)) (k : String) :
    (dictGet d k).isSome = d.any (fun p => p.1 == k) := by
  induction d with
  | nil => rfl
  | cons p ps ih =>
    cases h : (p.1 == k) with
    | true => simp [dictGet, List.find?, h]
    | false =>
      simp only [List.any_cons, h, Bool.false_or]
      rw [← ih]
      simp [dictGet, List.find?, h]

/-- C8: the fleet update issues, for each repository in order, exactly one
`svn up` invocation; it carries `-r <revision>` exactly when the
repository's path is a key of the loaded revision set (the value being the
pinned revision), and is a plain `svn up <path>` otherwise. -/
theorem update_revset_pinning :
    ∀ (W : Type) (o : Oracle W) (w : W) (repos : List Repo)
      (revset : List (String × String)),
      execArgsOf (updateRun o w repos revset).trace =
        repos.map (fun r => updateCmd r.local_path (dictGet revset r.local_path)) ∧
      (∀ path v, dictGet revset path = some v →
        updateCmd path (some v) = ["svn", "up", "-r", v, path]) ∧
      (∀ path, updateCmd path none = ["svn", "up", path]) ∧
      (∀ path, (dictGet revset path).isSome = revset.any (fun p => p.1 == path)) := by
  intro W o w repos revset
  refine ⟨?_, ?_, fun path => rfl, fun path => dictGet_isSome revset path⟩
  · induction repos generalizing w with
    | nil => rfl
    | cons r rest ih =>
      simp [updateRun, execArgsOf_append, update_execArgs, ih]
  · intro path v h
    rfl

/-- C8 witness: a pinned path gets the explicit `-r` argument. -/
theorem update_revset_pinning_witness :
    updateCmd "proj" (some "42") = ["svn", "up", "-r", "42", "proj"] :=
  (update_revset_pinning Unit fixtureOracle () [] [("proj", "42")]).2.1
    "proj" "42" (by decide)

/-- The warning list of `loadRevSet`'s fold is the accumulated warnings
followed by one entry per malformed enumerated line. -/
theorem loadRevSet_foldl_snd (l : List (Nat × String))
    (d : List (String × String)) (ws : List (Nat × String)) :
    (l.foldl loadRevSetStep (d, ws)).2 = ws ++ l.filterMap revSetWarnOf := by
  induction l generalizing d ws with
  | nil => simp
  | cons ie rest ih =>
    rw [List.foldl_cons, List.filterMap_cons]
    rcases hsp : pySplitChar ie.2 '@' with _ | ⟨a, _ | ⟨b, _ | ⟨c, tl⟩⟩⟩
    · simp only [loadRevSetStep, hsp, revSetWarnOf]
      simp [ih]
    · simp only [loadRevSetStep, hsp, revSetWarnOf]
      simp [ih]
    · by_cases hd : pyIsDigit (pyStrip b)
      · simp only [loadRevSetStep, hsp, revSetWarnOf, hd, if_true]
        simp [ih]
      · simp only [loadRevSetStep, hsp, revSetWarnOf, hd, if_false]
        simp [ih]
    · simp only [loadRevSetStep, hsp, revSetWarnOf]
      simp [ih]

/-- C10: every malformed-line warning of `loadRevSet` reports one more
than the entry's 0-based position among the entries `readConfig` yields
(comments and blanks already dropped), not the physical line number; at
the sample file the two malformed entries sit on physical lines 4 and 5
but are reported as lines 2 and 3. -/
theorem revset_warning_line_numbers :
    (∀ contents : String,
      (loadRevSet contents).2 =
        ((readConfig contents).enum).filterMap revSetWarnOf) ∧
    (loadRevSet "libA @ 42\n# comment\n\nlibB @ abc\nlibC\n").2.map Prod.fst =
      [2, 3] ∧
    ((pySplitChar "libA @ 42\n# comment\n\nlibB @ abc\nlibC\n" '\n').get? 3 =
        some "libB @ abc" ∧
      (pySplitChar "libA @ 42\n# comment\n\nlibB @ abc\nlibC\n" '\n').get? 4 =
        some "libC") ∧
    ((2 : Nat) ≠ 3 + 1 ∧ (3 : Nat) ≠ 4 + 1) := by
  refine ⟨fun contents => ?_, by decide, ⟨by decide, by decide⟩, by decide⟩
  unfold loadRevSet
  exact loadRevSet_foldl_snd _ [] []

end Svntool
